import Mathlib

/-!
Shallow embedding of `src/mgos_vfs_dev.c` (mongoose-os VFS device layer):
the device-type registry, the named-instance registry with reference-counted
lifecycle, and the devtab parser.

Modelling conventions:
* C pointers to heap-allocated `struct mgos_vfs_dev` become `Nat` ids into an
  explicit allocation map (`heap`); `free` removes the id from the map;
  `calloc` draws a fresh id from `nextId`.  A nullable pointer is `Option Nat`,
  a nullable string is `Option String`.
* Driver function pointers are `Option`-valued: `none` is a NULL pointer.
  The layer only ever invokes `ops->open` (status from the options string) and
  `ops->close` (a status); `read`/`write`/`erase`/`get_size` are carried for
  the completeness check in `mgos_vfs_dev_register_type` but never invoked
  here, so only their presence is modelled.
* `abort()` is modelled by returning `none` from `mgos_vfs_dev_register_type`
  (no successor state exists).  `calloc` failure paths are not modelled
  (allocation always succeeds).
* Branches that would dereference a dangling or NULL pointer in C
  (use-after-free, calling a NULL `open`) are unreachable through the public
  API; the embedding makes them explicit no-ops.
-/

namespace VfsDev

/-- The `struct mgos_vfs_dev_ops` operations contract: six function pointers,
each possibly NULL. -/
structure DevOps where
  open_ : Option (String → Int)
  read : Option Unit
  write : Option Unit
  erase : Option Unit
  get_size : Option Nat
  close : Option Int

/-- A live `struct mgos_vfs_dev`: borrowed ops, optional owned name, refcount. -/
structure Dev where
  ops : DevOps
  name : Option String
  refs : Int

/-- An entry of the type registry `s_dev_types`. -/
structure DevTypeEntry where
  type : String
  ops : DevOps

/-- The global state of the subsystem: the two SLISTs (`s_dev_types`,
`s_devs`, both head-insert), plus the allocation map for device instances. -/
structure VfsState where
  dev_types : List DevTypeEntry
  devs : List Nat
  heap : List (Nat × Dev)
  nextId : Nat

/-- Dereference a device pointer: look the id up in the allocation map. -/
def heapGet (h : List (Nat × Dev)) (i : Nat) : Option Dev :=
  (h.find? (fun p => p.1 == i)).map (fun p => p.2)

/-- Write through a device pointer. -/
def heapSet (h : List (Nat × Dev)) (i : Nat) (d : Dev) : List (Nat × Dev) :=
  h.map (fun p => if p.1 == i then (i, d) else p)

/-- Release a device allocation (`free`). -/
def heapFree (h : List (Nat × Dev)) (i : Nat) : List (Nat × Dev) :=
  h.filter (fun p => p.1 != i)

/-- The refcount of the instance a pointer designates, if still allocated. -/
def devRefs (st : VfsState) (i : Nat) : Option Int :=
  (heapGet st.heap i).map (fun d => d.refs)

/-- The name field of the instance a pointer designates, if still allocated. -/
def devName (st : VfsState) (i : Nat) : Option (Option String) :=
  (heapGet st.heap i).map (fun d => d.name)

/-- The `SLIST_FOREACH` scan of `s_dev_types` inside `mgos_vfs_dev_create_int`:
first entry whose `type` matches wins (the list is head-insert, so the most
recently registered entry is found first). -/
def lookupType (l : List DevTypeEntry) (ty : String) : Option DevOps :=
  match l with
  | [] => none
  | e :: rest => if ty == e.type then some e.ops else lookupType rest ty

/-- The function `mgos_vfs_dev_register_type`: if any of the six operations is
NULL, `abort()` (modelled as `none`); otherwise insert the entry at the head of
`s_dev_types` and return `true`. -/
def mgos_vfs_dev_register_type (st : VfsState) (ty : String) (ops : DevOps) :
    Option (VfsState × Bool) :=
  if ops.open_.isNone || ops.read.isNone || ops.write.isNone || ops.erase.isNone ||
      ops.get_size.isNone || ops.close.isNone then
    none
  else
    some ({ st with dev_types := ⟨ty, ops⟩ :: st.dev_types }, true)

/-- The function `mgos_vfs_dev_create_int`: resolve the type (most-recent
first); on a match allocate an instance with `refs = 1`, call the driver's
`open` with the options (`NULL` options become `""`); nonzero status frees the
instance and yields NULL.  A NULL `open` pointer would be called in C
(unreachable for types admitted by `mgos_vfs_dev_register_type`); the model
makes that branch fail after the allocation. -/
def mgos_vfs_dev_create_int (st : VfsState) (ty : String) (opts : Option String) :
    VfsState × Option Nat :=
  match lookupType st.dev_types ty with
  | none => (st, none)
  | some ops =>
    match ops.open_ with
    | none => ({ st with nextId := st.nextId + 1 }, none)
    | some f =>
      if f (opts.getD "") != 0 then
        ({ st with nextId := st.nextId + 1 }, none)
      else
        ({ st with heap := (st.nextId, ⟨ops, none, 1⟩) :: st.heap,
                   nextId := st.nextId + 1 }, some st.nextId)

/-- The function `mgos_vfs_dev_create` (`create_int` with a NULL log name; the
name only affects logging). -/
def mgos_vfs_dev_create (st : VfsState) (ty : String) (opts : Option String) :
    VfsState × Option Nat :=
  mgos_vfs_dev_create_int st ty opts

/-- The function `mgos_vfs_dev_register`: reject NULL device, NULL or empty
name, and any registry entry that is the same pointer or bears the same name;
otherwise store the name, increment the refcount, and head-insert into
`s_devs`. -/
def mgos_vfs_dev_register (st : VfsState) (dev : Option Nat) (name : Option String) :
    VfsState × Bool :=
  match dev, name with
  | some i, some n =>
    if n == "" then (st, false)
    else if st.devs.any (fun j =>
        j == i || (match heapGet st.heap j with
                   | some d => d.name == some n
                   | none => false)) then (st, false)
    else
      match heapGet st.heap i with
      | some d =>
        ({ st with heap := heapSet st.heap i { d with name := some n, refs := d.refs + 1 },
                   devs := i :: st.devs }, true)
      | none => (st, false)
  | _, _ => (st, false)

/-- The function `find_dev`: NULL name finds nothing; otherwise the first
`s_devs` entry whose name matches. -/
def find_dev (st : VfsState) (name : Option String) : Option Nat :=
  match name with
  | none => none
  | some n =>
    st.devs.find? (fun i =>
      match heapGet st.heap i with
      | some d => d.name == some n
      | none => false)

/-- The function `mgos_vfs_dev_open`: find by name; on a hit increment the
refcount and return the handle, on a miss return NULL. -/
def mgos_vfs_dev_open (st : VfsState) (name : Option String) : VfsState × Option Nat :=
  match find_dev st name with
  | none => (st, none)
  | some i =>
    match heapGet st.heap i with
    | some d => ({ st with heap := heapSet st.heap i { d with refs := d.refs + 1 } }, some i)
    | none => (st, some i)

/-- The function `mgos_vfs_dev_close`: NULL device returns `false`.  Otherwise
decrement `refs`; if the result is `≤ 0`, destroy: remove the name binding
from `s_devs` first (when present), then invoke the driver's `close` (the
return value is `true` exactly when that status is 0), then free the memory.
A non-final close leaves `ret` at its initial `false`. -/
def mgos_vfs_dev_close (st : VfsState) (dev : Option Nat) : VfsState × Bool :=
  match dev with
  | none => (st, false)
  | some i =>
    match heapGet st.heap i with
    | none => (st, false)
    | some d =>
      let refs' := d.refs - 1
      if refs' ≤ 0 then
        let st1 := if d.name.isSome then
                     { st with devs := st.devs.filter (fun j => j != i) }
                   else st
        let ret := d.ops.close == some 0
        ({ st1 with heap := heapFree st1.heap i }, ret)
      else
        ({ st with heap := heapSet st.heap i { d with refs := refs' } }, false)

/-- The function `mgos_vfs_dev_create_and_register`: NULL name is rejected;
otherwise `create`; NULL yields `false`; otherwise `register`, then `close`
(unconditionally), returning `register`'s result. -/
def mgos_vfs_dev_create_and_register (st : VfsState) (ty : String) (opts : Option String)
    (name : Option String) : VfsState × Bool :=
  match name with
  | none => (st, false)
  | some n =>
    match mgos_vfs_dev_create_int st ty opts with
    | (st1, none) => (st1, false)
    | (st1, some i) =>
      let r := mgos_vfs_dev_register st1 (some i) (some n)
      let c := mgos_vfs_dev_close r.1 (some i)
      (c.1, r.2)

/-- The function `mgos_vfs_dev_unregister`: no instance bound to the name
returns `false`.  With `refs > 1` strip only the name binding (remove from
`s_devs`, free the name; `refs` untouched); otherwise perform a full `close`.
Returns `true` in both cases. -/
def mgos_vfs_dev_unregister (st : VfsState) (name : Option String) : VfsState × Bool :=
  match find_dev st name with
  | none => (st, false)
  | some i =>
    match heapGet st.heap i with
    | none => (st, false)
    | some d =>
      if 1 < d.refs then
        ({ st with devs := st.devs.filter (fun j => j != i),
                   heap := heapSet st.heap i { d with name := none } }, true)
      else
        ((mgos_vfs_dev_close st (some i)).1, true)

/-- The character class of C `isspace` (used by `mg_strstrip`). -/
def isSpaceC (c : Char) : Bool :=
  c == ' ' || c == '\t' || c == '\n' || c == '\r' || c.toNat == 11 || c.toNat == 12

/-- The function `mg_strstrip`: trim `isspace` characters from both ends. -/
def strip (cs : List Char) : List Char :=
  ((cs.dropWhile isSpaceC).reverse.dropWhile isSpaceC).reverse

/-- Skip a run of delimiter characters (the inner `while` of `next_field`,
which collapses consecutive delimiters). -/
def dropDelims (cs : List Char) (delim : List Char) : List Char :=
  match cs with
  | [] => []
  | c :: rest => if delim.contains c then dropDelims rest delim else c :: rest

/-- One step of `next_field` on a live string: the field up to the first
delimiter, and the remainder past the delimiter run (`none` when no delimiter
occurs, which makes the following call return NULL). -/
def splitField (cs : List Char) (delim : List Char) : List Char × Option (List Char) :=
  match cs with
  | [] => ([], none)
  | c :: rest =>
    if delim.contains c then ([], some (dropDelims rest delim))
    else
      let p := splitField rest delim
      (c :: p.1, p.2)

/-- The function `next_field(stringp, delim)`: returns the old `*stringp`
(NULL included) and the new `*stringp`. -/
def next_field (sp : Option String) (delim : List Char) : Option String × Option String :=
  match sp with
  | none => (none, none)
  | some s =>
    let p := splitField s.toList delim
    (some (String.mk p.1), p.2.map String.mk)

/-- Field delimiters used by `mgos_process_devtab_entry` (`" \t"`). -/
def fieldDelims : List Char := [' ', '\t']

/-- Record delimiters used by `mgos_process_devtab` (`"|\r\n"`). -/
def recordDelims : List Char := ['|', '\r', '\n']

/-- The function `mgos_process_devtab_entry`: split a (stripped, non-blank)
record on whitespace into `name`, `type` and verbatim `opts` (NULL `opts`
becomes `""`), fail on a missing token, else `create_and_register`. -/
def mgos_process_devtab_entry (st : VfsState) (e : String) : VfsState × Bool :=
  let p1 := next_field (some e) fieldDelims
  let p2 := next_field p1.2 fieldDelims
  match p1.1, p2.1 with
  | some n, some t => mgos_vfs_dev_create_and_register st t (some (p2.2.getD "")) (some n)
  | _, _ => (st, false)

/-- Iterate `next_field` to exhaustion.  The fuel is an upper bound on the
number of fields; each recursive step consumes at least one character, so
`length + 1` fuel is always enough. -/
def splitAll (fuel : Nat) (cs : List Char) (delim : List Char) : List (List Char) :=
  match fuel with
  | 0 => []
  | f + 1 =>
    match splitField cs delim with
    | (fld, none) => [fld]
    | (fld, some rest) => fld :: splitAll f rest delim

/-- The records of a devtab string: split on `|`, CR, LF, each stripped
(`mg_strstrip` plus the in-place terminator write). -/
def records (dt : String) : List String :=
  (splitAll (dt.length + 1) dt.toList recordDelims).map (fun cs => String.mk (strip cs))

/-- The skip test of `mgos_process_devtab`: empty record or comment. -/
def skipRec (r : String) : Bool :=
  r.isEmpty || r.toList.head? == some '#'

/-- The record loop of `mgos_process_devtab`: `while (res && next record)`. -/
def processRecords (st : VfsState) (rs : List String) : VfsState × Bool :=
  match rs with
  | [] => (st, true)
  | r :: rest =>
    if skipRec r then processRecords st rest
    else
      let p := mgos_process_devtab_entry st r
      if p.2 then processRecords p.1 rest else (p.1, false)

/-- The function `mgos_process_devtab`: tokenize a private copy of the text
into records and process them in order, stopping on the first failure. -/
def mgos_process_devtab (st : VfsState) (dt : String) : VfsState × Bool :=
  processRecords st (records dt)

/-! Concrete driver contracts and states used to instantiate the general
theorems.  The `open` functions of the devtab drivers return success only on
the exact options string the devtab record is expected to deliver, so a
successful bulk-provisioning run certifies which options each driver saw. -/

/-- A complete operations contract whose driver accepts any options. -/
def opsOk : DevOps :=
  { open_ := some (fun _ => 0), read := some (), write := some (),
    erase := some (), get_size := some 1024, close := some 0 }

/-- A second complete contract, distinguishable from `opsOk`. -/
def opsAlt : DevOps :=
  { open_ := some (fun _ => 0), read := some (), write := some (),
    erase := some (), get_size := some 2048, close := some 1 }

/-- An incomplete contract: the `open` operation is a NULL pointer. -/
def opsNoOpen : DevOps :=
  { open_ := none, read := some (), write := some (),
    erase := some (), get_size := some 1024, close := some 0 }

/-- The empty initial state. -/
def st0 : VfsState := { dev_types := [], devs := [], heap := [], nextId := 0 }

/-- A state with one registered device type `"t"`. -/
def stT : VfsState := { dev_types := [⟨"t", opsOk⟩], devs := [], heap := [], nextId := 0 }

/-- State after `create_and_register(stT, "t", NULL, "x")`: device 0 named
`"x"` with the registry's single reference. -/
def stX1 : VfsState :=
  { dev_types := [⟨"t", opsOk⟩], devs := [0],
    heap := [(0, ⟨opsOk, some "x", 1⟩)], nextId := 1 }

/-- State after a holder additionally opened `"x"`: refcount 2. -/
def stX2 : VfsState :=
  { dev_types := [⟨"t", opsOk⟩], devs := [0],
    heap := [(0, ⟨opsOk, some "x", 2⟩)], nextId := 1 }

/-- State after `unregister("x")` on `stX2`: name stripped, refcount still 2. -/
def stX3 : VfsState :=
  { dev_types := [⟨"t", opsOk⟩], devs := [],
    heap := [(0, ⟨opsOk, none, 2⟩)], nextId := 1 }

/-- State after the holder's close on `stX3`: the instance survives, refs 1. -/
def stX4 : VfsState :=
  { dev_types := [⟨"t", opsOk⟩], devs := [],
    heap := [(0, ⟨opsOk, none, 1⟩)], nextId := 1 }

/-- State after one further close on `stX4`: the instance is gone. -/
def stX5 : VfsState :=
  { dev_types := [⟨"t", opsOk⟩], devs := [], heap := [], nextId := 1 }

/-- State after a failed duplicate `create_and_register` of `"x"` on `stX1`:
the transient instance 1 was created and fully destroyed. -/
def stXfail : VfsState :=
  { dev_types := [⟨"t", opsOk⟩], devs := [0],
    heap := [(0, ⟨opsOk, some "x", 1⟩)], nextId := 2 }

/-- State after processing the devtab record `"a t"` on `stT`. -/
def stDa : VfsState :=
  { dev_types := [⟨"t", opsOk⟩], devs := [0],
    heap := [(0, ⟨opsOk, some "a", 1⟩)], nextId := 1 }

/-- A spiflash driver succeeding only on options `"size=4096"`. -/
def spiflash_ops : DevOps :=
  { open_ := some (fun o => if o == "size=4096" then 0 else 1), read := some (),
    write := some (), erase := some (), get_size := some 4096, close := some 0 }

/-- A ramdisk driver succeeding only on empty options. -/
def ramdisk_ops : DevOps :=
  { open_ := some (fun o => if o == "" then 0 else 1), read := some (),
    write := some (), erase := some (), get_size := some 64, close := some 0 }

/-- A flash driver succeeding only on options `"opts"`. -/
def flash_ops : DevOps :=
  { open_ := some (fun o => if o == "opts" then 0 else 1), read := some (),
    write := some (), erase := some (), get_size := some 128, close := some 0 }

/-- A state with the three devtab driver types registered. -/
def stDevtab : VfsState :=
  { dev_types := [⟨"spiflash", spiflash_ops⟩, ⟨"ramdisk", ramdisk_ops⟩,
                  ⟨"flash", flash_ops⟩],
    devs := [], heap := [], nextId := 0 }

/-- The devtab text of the specification's bulk-provisioning example. -/
def devtabInput : String := "a spiflash size=4096|b ramdisk|# note|   |c flash opts"

/-- The result of processing the example devtab on `stDevtab`. -/
def devtabRes : VfsState × Bool := mgos_process_devtab stDevtab devtabInput

/-! Basic facts about the allocation map. -/

theorem heapGet_cons_self {h : List (Nat × Dev)} {i : Nat} {d : Dev} :
    heapGet ((i, d) :: h) i = some d := by
  simp [heapGet, List.find?]

theorem heapGet_cons_ne {h : List (Nat × Dev)} {i j : Nat} {d : Dev} (hne : j ≠ i) :
    heapGet ((j, d) :: h) i = heapGet h i := by
  have hb : (j == i) = false := by simpa using hne
  simp [heapGet, List.find?, hb]

theorem heapSet_cons_self {t : List (Nat × Dev)} {i : Nat} {e d : Dev} :
    heapSet ((i, e) :: t) i d = (i, d) :: heapSet t i d := by
  show (if (i == i) = true then (i, d) else (i, e)) :: heapSet t i d = (i, d) :: heapSet t i d
  simp

theorem heapSet_cons_ne {t : List (Nat × Dev)} {i j : Nat} {e : Dev} {d : Dev}
    (hne : j ≠ i) : heapSet ((j, e) :: t) i d = (j, e) :: heapSet t i d := by
  have hb : (j == i) = false := by simpa using hne
  show (if (j == i) = true then (i, d) else (j, e)) :: heapSet t i d = (j, e) :: heapSet t i d
  rw [hb]
  simp

theorem heapGet_heapSet_self {h : List (Nat × Dev)} {i : Nat} {d0 : Dev} (d : Dev)
    (hg : heapGet h i = some d0) : heapGet (heapSet h i d) i = some d := by
  induction h with
  | nil => simp [heapGet] at hg
  | cons p t ih =>
    rcases p with ⟨j, e⟩
    by_cases hji : j = i
    · subst hji
      rw [heapSet_cons_self, heapGet_cons_self]
    · rw [heapGet_cons_ne hji] at hg
      rw [heapSet_cons_ne hji, heapGet_cons_ne hji]
      exact ih hg

theorem heapGet_heapSet_ne {h : List (Nat × Dev)} {i j : Nat} {d : Dev} (hne : j ≠ i) :
    heapGet (heapSet h i d) j = heapGet h j := by
  induction h with
  | nil => rfl
  | cons p t ih =>
    rcases p with ⟨k, e⟩
    by_cases hki : k = i
    · subst hki
      have hkj : k ≠ j := fun hh => hne (hh.symm)
      rw [heapSet_cons_self, heapGet_cons_ne hkj, heapGet_cons_ne hkj]
      exact ih
    · rw [heapSet_cons_ne hki]
      by_cases hkj : k = j
      · subst hkj
        rw [heapGet_cons_self, heapGet_cons_self]
      · rw [heapGet_cons_ne hkj, heapGet_cons_ne hkj]
        exact ih

theorem heapFree_cons_self {t : List (Nat × Dev)} {i : Nat} {e : Dev} :
    heapFree ((i, e) :: t) i = heapFree t i := by
  simp [heapFree]

theorem heapFree_cons_ne {t : List (Nat × Dev)} {i j : Nat} {e : Dev} (hne : j ≠ i) :
    heapFree ((j, e) :: t) i = (j, e) :: heapFree t i := by
  have hb : (j != i) = true := by simpa using hne
  simp [heapFree, hb]

theorem heapGet_heapFree_self {h : List (Nat × Dev)} {i : Nat} :
    heapGet (heapFree h i) i = none := by
  induction h with
  | nil => rfl
  | cons p t ih =>
    rcases p with ⟨k, e⟩
    by_cases hki : k = i
    · subst hki
      rw [heapFree_cons_self]
      exact ih
    · rw [heapFree_cons_ne hki, heapGet_cons_ne hki]
      exact ih

/-! Path characterizations of the lifecycle operations, used to settle the
claims. -/

theorem create_int_none (st : VfsState) (ty : String) (opts : Option String) (st' : VfsState)
    (h : mgos_vfs_dev_create_int st ty opts = (st', none)) :
    st'.dev_types = st.dev_types ∧ st'.devs = st.devs ∧ st'.heap = st.heap := by
  unfold mgos_vfs_dev_create_int at h
  cases hl : lookupType st.dev_types ty with
  | none =>
    simp only [hl] at h
    injection h with h1 h2
    subst h1
    exact ⟨rfl, rfl, rfl⟩
  | some ops =>
    simp only [hl] at h
    cases hop : ops.open_ with
    | none =>
      simp only [hop] at h
      injection h with h1 h2
      subst h1
      exact ⟨rfl, rfl, rfl⟩
    | some f =>
      simp only [hop] at h
      by_cases hv : (f (opts.getD "") != 0) = true
      · rw [if_pos hv] at h
        injection h with h1 h2
        subst h1
        exact ⟨rfl, rfl, rfl⟩
      · rw [if_neg hv] at h
        injection h with h1 h2
        cases h2

theorem create_int_some (st : VfsState) (ty : String) (opts : Option String)
    (st' : VfsState) (i : Nat)
    (h : mgos_vfs_dev_create_int st ty opts = (st', some i)) :
    ∃ ops, lookupType st.dev_types ty = some ops ∧ i = st.nextId ∧
      st' = { st with heap := (st.nextId, ⟨ops, none, 1⟩) :: st.heap,
                      nextId := st.nextId + 1 } := by
  unfold mgos_vfs_dev_create_int at h
  cases hl : lookupType st.dev_types ty with
  | none =>
    simp only [hl] at h
    injection h with h1 h2
    cases h2
  | some ops =>
    simp only [hl] at h
    cases hop : ops.open_ with
    | none =>
      simp only [hop] at h
      injection h with h1 h2
      cases h2
    | some f =>
      simp only [hop] at h
      by_cases hv : (f (opts.getD "") != 0) = true
      · rw [if_pos hv] at h
        injection h with h1 h2
        cases h2
      · rw [if_neg hv] at h
        injection h with h1 h2
        injection h2 with h2
        exact ⟨ops, rfl, h2.symm, h1.symm⟩

theorem register_false (st : VfsState) (dv : Option Nat) (nm : Option String)
    (h : (mgos_vfs_dev_register st dv nm).2 = false) :
    (mgos_vfs_dev_register st dv nm).1 = st := by
  cases dv with
  | none => rfl
  | some i =>
    cases nm with
    | none => rfl
    | some n =>
      simp only [mgos_vfs_dev_register] at h ⊢
      by_cases h1 : (n == "") = true
      · rw [if_pos h1]
      · rw [if_neg h1] at h ⊢
        by_cases h2 : (st.devs.any fun j =>
            j == i || (match heapGet st.heap j with
                       | some d => d.name == some n
                       | none => false)) = true
        · rw [if_pos h2]
        · rw [if_neg h2] at h ⊢
          cases hg : heapGet st.heap i with
          | none => simp only [hg]
          | some d =>
            simp only [hg] at h
            cases h

theorem register_true (st : VfsState) (i : Nat) (n : String) (st' : VfsState)
    (h : mgos_vfs_dev_register st (some i) (some n) = (st', true)) :
    ∃ d, heapGet st.heap i = some d ∧
      st' = { st with
                heap := heapSet st.heap i { d with name := some n, refs := d.refs + 1 },
                devs := i :: st.devs } := by
  simp only [mgos_vfs_dev_register] at h
  by_cases h1 : (n == "") = true
  · rw [if_pos h1] at h
    cases h
  · rw [if_neg h1] at h
    by_cases h2 : (st.devs.any fun j =>
        j == i || (match heapGet st.heap j with
                   | some d => d.name == some n
                   | none => false)) = true
    · rw [if_pos h2] at h
      cases h
    · rw [if_neg h2] at h
      cases hg : heapGet st.heap i with
      | none =>
        simp only [hg] at h
        cases h
      | some d =>
        simp only [hg] at h
        injection h with hA hB
        exact ⟨d, rfl, hA.symm⟩

theorem close_eq (st : VfsState) (i : Nat) (d : Dev) (hg : heapGet st.heap i = some d) :
    mgos_vfs_dev_close st (some i) =
      if d.refs - 1 ≤ 0 then
        ({ st with
             devs := if d.name.isSome then st.devs.filter (fun j => j != i) else st.devs,
             heap := heapFree st.heap i }, d.ops.close == some 0)
      else
        ({ st with heap := heapSet st.heap i { d with refs := d.refs - 1 } }, false) := by
  simp only [mgos_vfs_dev_close, hg]
  by_cases hr : d.refs - 1 ≤ 0
  · simp only [if_pos hr]
    by_cases hn : d.name.isSome <;> simp [hn]
  · simp only [if_neg hr]

theorem find_dev_some (st : VfsState) (nm : Option String) (i : Nat)
    (h : find_dev st nm = some i) :
    ∃ n d, nm = some n ∧ i ∈ st.devs ∧ heapGet st.heap i = some d ∧ d.name = some n := by
  unfold find_dev at h
  cases nm with
  | none => cases h
  | some n =>
    have hm := List.mem_of_find?_eq_some h
    have hp := List.find?_some h
    revert hp
    cases hg : heapGet st.heap i with
    | none =>
      intro hp
      cases hp
    | some d =>
      intro hp
      simp only [beq_iff_eq] at hp
      exact ⟨n, d, rfl, hm, rfl, hp⟩

theorem processRecords_append (pre rest : List String) (st : VfsState) :
    processRecords st (pre ++ rest) =
      if (processRecords st pre).2 then processRecords (processRecords st pre).1 rest
      else processRecords st pre := by
  induction pre generalizing st with
  | nil => simp [processRecords]
  | cons r t ih =>
    by_cases hs : skipRec r
    · simp only [List.cons_append, processRecords, if_pos hs]
      exact ih st
    · by_cases he : (mgos_process_devtab_entry st r).2
      · simp only [List.cons_append, processRecords, if_neg hs, if_pos he]
        exact ih _
      · simp only [List.cons_append, processRecords, if_neg hs, if_neg he]
        simp [he]

theorem create_and_register_false_devs (st : VfsState) (ty : String)
    (opts : Option String) (nm : Option String)
    (h : (mgos_vfs_dev_create_and_register st ty opts nm).2 = false) :
    (mgos_vfs_dev_create_and_register st ty opts nm).1.devs = st.devs := by
  cases nm with
  | none => rfl
  | some n =>
    rcases hcr : mgos_vfs_dev_create_int st ty opts with ⟨st1, dev⟩
    cases dev with
    | none =>
      simp only [mgos_vfs_dev_create_and_register, hcr] at h ⊢
      exact (create_int_none st ty opts st1 hcr).2.1
    | some i =>
      obtain ⟨ops, hl, hi, hst1⟩ := create_int_some st ty opts st1 i hcr
      simp only [mgos_vfs_dev_create_and_register, hcr] at h ⊢
      have hreg := register_false st1 (some i) (some n) h
      rw [hreg]
      have hg : heapGet st1.heap i = some ⟨ops, none, 1⟩ := by
        rw [hst1, hi]
        exact heapGet_cons_self
      rw [close_eq st1 i ⟨ops, none, 1⟩ hg]
      simp only
      rw [if_pos (by omega : (1 : Int) - 1 ≤ 0)]
      simp only [Option.isSome_none, Bool.false_eq_true, if_neg (by simp : ¬False)]
      rw [hst1]

theorem entry_false_devs (st : VfsState) (r : String)
    (h : (mgos_process_devtab_entry st r).2 = false) :
    (mgos_process_devtab_entry st r).1.devs = st.devs := by
  simp only [mgos_process_devtab_entry] at h ⊢
  cases hA : (next_field (some r) fieldDelims).1 with
  | none => simp only [hA]
  | some n =>
    cases hB : (next_field (next_field (some r) fieldDelims).2 fieldDelims).1 with
    | none => simp only [hA, hB]
    | some t =>
      simp only [hA, hB] at h ⊢
      exact create_and_register_false_devs st _ _ _ h

theorem register_type_some (st : VfsState) (ty : String) (ops : DevOps)
    (st' : VfsState) (b : Bool)
    (h : mgos_vfs_dev_register_type st ty ops = some (st', b)) :
    st' = { st with dev_types := ⟨ty, ops⟩ :: st.dev_types } ∧ b = true := by
  unfold mgos_vfs_dev_register_type at h
  by_cases hc : (ops.open_.isNone || ops.read.isNone || ops.write.isNone ||
      ops.erase.isNone || ops.get_size.isNone || ops.close.isNone) = true
  · rw [if_pos hc] at h
    cases h
  · rw [if_neg hc] at h
    injection h with h'
    injection h' with hA hB
    exact ⟨hA.symm, hB.symm⟩

/-! The claims. -/

/-- Claim C6: `mgos_vfs_dev_register` returns `false` and leaves the whole
state (registry, refcount, name field) unchanged whenever the device is NULL,
the name is NULL or empty, the name is already bound to an instance in the
registry, or the same device pointer is already present in the registry. -/
theorem register_rejects_invalid
    (st : VfsState) (i : Nat) (dv : Option Nat) (nm : Option String) (n : String) :
    mgos_vfs_dev_register st none nm = (st, false) ∧
    mgos_vfs_dev_register st dv none = (st, false) ∧
    mgos_vfs_dev_register st dv (some "") = (st, false) ∧
    (i ∈ st.devs → mgos_vfs_dev_register st (some i) nm = (st, false)) ∧
    ((∃ j, j ∈ st.devs ∧ devName st j = some (some n)) →
      mgos_vfs_dev_register st (some i) (some n) = (st, false)) := by
  refine ⟨?_, ?_, ?_, ?_, ?_⟩
  · cases nm <;> rfl
  · cases dv <;> rfl
  · cases dv <;> rfl
  · intro hm
    cases nm with
    | none => rfl
    | some n' =>
      simp only [mgos_vfs_dev_register]
      by_cases h1 : (n' == "") = true
      · rw [if_pos h1]
      · have hany : (st.devs.any fun j =>
            j == i || (match heapGet st.heap j with
                       | some d => d.name == some n'
                       | none => false)) = true := by
          rw [List.any_eq_true]
          exact ⟨i, hm, by simp⟩
        rw [if_neg h1, if_pos hany]
  · rintro ⟨j, hj, hnm⟩
    simp only [mgos_vfs_dev_register]
    by_cases h1 : (n == "") = true
    · rw [if_pos h1]
    · have hany : (st.devs.any fun k =>
          k == i || (match heapGet st.heap k with
                     | some d => d.name == some n
                     | none => false)) = true := by
        rw [List.any_eq_true]
        refine ⟨j, hj, ?_⟩
        obtain ⟨d, hgd, hdn⟩ := Option.map_eq_some'.mp hnm
        rw [hgd]
        simp [hdn]
      rw [if_neg h1, if_pos hany]

/-- Claim C6 witness: concrete instances of all five rejection cases on
`stX1` (device 0 registered under `"x"`). -/
theorem register_rejects_invalid_witness :
    mgos_vfs_dev_register stX1 none (some "y") = (stX1, false) ∧
    mgos_vfs_dev_register stX1 (some 0) none = (stX1, false) ∧
    mgos_vfs_dev_register stX1 (some 0) (some "") = (stX1, false) ∧
    mgos_vfs_dev_register stX1 (some 0) (some "y") = (stX1, false) ∧
    mgos_vfs_dev_register stX1 (some 1) (some "x") = (stX1, false) :=
  ⟨(register_rejects_invalid stX1 0 (some 0) (some "y") "x").1,
   (register_rejects_invalid stX1 0 (some 0) (some "y") "x").2.1,
   (register_rejects_invalid stX1 0 (some 0) (some "y") "x").2.2.1,
   (register_rejects_invalid stX1 0 (some 0) (some "y") "x").2.2.2.1 (by decide),
   (register_rejects_invalid stX1 1 (some 0) (some "y") "x").2.2.2.2
     ⟨0, by decide, by decide⟩⟩

/-- Claim C7: after `register_type` is called twice with the same type name,
a subsequent successful `create` with that name binds the new device to the
most recently registered contract (head insertion plus first-match lookup). -/
theorem register_type_most_recent_wins
    (st st1 st2 st3 : VfsState) (ty : String) (ops1 ops2 : DevOps)
    (opts : Option String) (i : Nat)
    (_h1 : mgos_vfs_dev_register_type st ty ops1 = some (st1, true))
    (h2 : mgos_vfs_dev_register_type st1 ty ops2 = some (st2, true))
    (h3 : mgos_vfs_dev_create st2 ty opts = (st3, some i)) :
    heapGet st3.heap i = some ⟨ops2, none, 1⟩ := by
  have hst2 : st2 = { st1 with dev_types := ⟨ty, ops2⟩ :: st1.dev_types } :=
    (register_type_some st1 ty ops2 st2 true h2).1
  obtain ⟨ops, hl, hi, hst3⟩ := create_int_some st2 ty opts st3 i h3
  have hops : ops = ops2 := by
    rw [hst2] at hl
    simp [lookupType] at hl
    exact hl.symm
  subst hops
  rw [hst3, hi]
  exact heapGet_cons_self

/-- Claim C7 witness: registering `opsOk` then `opsAlt` under `"t"` and
creating yields a device carrying `opsAlt`. -/
theorem register_type_most_recent_wins_witness :
    mgos_vfs_dev_register_type st0 "t" opsOk =
      some ({ st0 with dev_types := [⟨"t", opsOk⟩] }, true) ∧
    mgos_vfs_dev_register_type { st0 with dev_types := [⟨"t", opsOk⟩] } "t" opsAlt =
      some ({ st0 with dev_types := [⟨"t", opsAlt⟩, ⟨"t", opsOk⟩] }, true) ∧
    heapGet (mgos_vfs_dev_create
        { st0 with dev_types := [⟨"t", opsAlt⟩, ⟨"t", opsOk⟩] } "t" none).1.heap 0 =
      some ⟨opsAlt, none, 1⟩ :=
  ⟨rfl, rfl,
   register_type_most_recent_wins st0
     { st0 with dev_types := [⟨"t", opsOk⟩] }
     { st0 with dev_types := [⟨"t", opsAlt⟩, ⟨"t", opsOk⟩] }
     { dev_types := [⟨"t", opsAlt⟩, ⟨"t", opsOk⟩], devs := [],
       heap := [(0, ⟨opsAlt, none, 1⟩)], nextId := 1 }
     "t" opsOk opsAlt none 0 rfl rfl rfl⟩

/-- Claim C8: `mgos_vfs_dev_register_type` aborts the process (modelled as no
successor state, hence no entry is ever inserted) exactly when one of the six
required operations is a NULL pointer; with all six present it does not abort
and inserts the entry at the head of the type registry. -/
theorem register_type_abort_iff (st : VfsState) (ty : String) (ops : DevOps) :
    (mgos_vfs_dev_register_type st ty ops = none ↔
      (ops.open_ = none ∨ ops.read = none ∨ ops.write = none ∨ ops.erase = none ∨
       ops.get_size = none ∨ ops.close = none)) ∧
    ((ops.open_ ≠ none ∧ ops.read ≠ none ∧ ops.write ≠ none ∧ ops.erase ≠ none ∧
      ops.get_size ≠ none ∧ ops.close ≠ none) →
      mgos_vfs_dev_register_type st ty ops =
        some ({ st with dev_types := ⟨ty, ops⟩ :: st.dev_types }, true)) := by
  have hiff : (ops.open_.isNone || ops.read.isNone || ops.write.isNone ||
      ops.erase.isNone || ops.get_size.isNone || ops.close.isNone) = true ↔
      (ops.open_ = none ∨ ops.read = none ∨ ops.write = none ∨ ops.erase = none ∨
       ops.get_size = none ∨ ops.close = none) := by
    simp only [Bool.or_eq_true, Option.isNone_iff_eq_none]
    tauto
  constructor
  · constructor
    · intro hn
      unfold mgos_vfs_dev_register_type at hn
      by_cases hc : (ops.open_.isNone || ops.read.isNone || ops.write.isNone ||
          ops.erase.isNone || ops.get_size.isNone || ops.close.isNone) = true
      · exact hiff.mp hc
      · rw [if_neg hc] at hn
        cases hn
    · intro hd
      unfold mgos_vfs_dev_register_type
      rw [if_pos (hiff.mpr hd)]
  · intro hall
    unfold mgos_vfs_dev_register_type
    rw [if_neg (fun hc => by
      rcases hiff.mp hc with h | h | h | h | h | h <;> simp_all)]

/-- Claim C8 witness: a contract with a NULL `open` aborts; the complete
contract `opsOk` registers successfully. -/
theorem register_type_abort_iff_witness :
    mgos_vfs_dev_register_type st0 "u" opsNoOpen = none ∧
    mgos_vfs_dev_register_type st0 "u" opsOk =
      some ({ st0 with dev_types := ⟨"u", opsOk⟩ :: st0.dev_types }, true) :=
  ⟨(register_type_abort_iff st0 "u" opsNoOpen).1.mpr (Or.inl rfl),
   (register_type_abort_iff st0 "u" opsOk).2
     ⟨by simp [opsOk], by simp [opsOk], by simp [opsOk], by simp [opsOk],
      by simp [opsOk], by simp [opsOk]⟩⟩

/-- Claim C9: `mgos_vfs_dev_unregister` on a named device whose reference
count is greater than 1 removes the device from the registry list and clears
its name field, but leaves the reference count unchanged (the reference taken
by `register` is not released). -/
theorem unregister_keeps_refs
    (st : VfsState) (n : String) (i : Nat) (d : Dev)
    (hf : find_dev st (some n) = some i)
    (hg : heapGet st.heap i = some d)
    (hr : 1 < d.refs) :
    mgos_vfs_dev_unregister st (some n) =
      ({ st with devs := st.devs.filter (fun j => j != i),
                 heap := heapSet st.heap i { d with name := none } }, true) ∧
    devRefs (mgos_vfs_dev_unregister st (some n)).1 i = some d.refs := by
  have heq : mgos_vfs_dev_unregister st (some n) =
      ({ st with devs := st.devs.filter (fun j => j != i),
                 heap := heapSet st.heap i { d with name := none } }, true) := by
    simp only [mgos_vfs_dev_unregister, hf, hg, if_pos hr]
  refine ⟨heq, ?_⟩
  rw [heq]
  simp only [devRefs]
  rw [heapGet_heapSet_self _ hg]
  rfl

/-- Claim C9 witness: unregistering `"x"` on `stX2` (refcount 2) yields
`stX3` with the refcount still 2. -/
theorem unregister_keeps_refs_witness :
    mgos_vfs_dev_unregister stX2 (some "x") =
      ({ stX2 with devs := stX2.devs.filter (fun j => j != 0),
                   heap := heapSet stX2.heap 0 ⟨opsOk, none, 2⟩ }, true) ∧
    devRefs (mgos_vfs_dev_unregister stX2 (some "x")).1 0 = some 2 :=
  unregister_keeps_refs stX2 "x" 0 ⟨opsOk, some "x", 2⟩ rfl rfl (by decide)

/-- Claim C10: `mgos_vfs_dev_close` on NULL returns `false`; on a live device
it returns `true` exactly when the decremented count reaches zero (the final,
destroying call) and the driver's close reports success; when the decremented
count is still positive it only decrements and returns `false`. -/
theorem close_return_value (st : VfsState) (i : Nat) (d : Dev) :
    mgos_vfs_dev_close st none = (st, false) ∧
    (heapGet st.heap i = some d →
      ((mgos_vfs_dev_close st (some i)).2 = true ↔
        (d.refs ≤ 1 ∧ d.ops.close = some 0)) ∧
      (1 < d.refs → mgos_vfs_dev_close st (some i) =
        ({ st with heap := heapSet st.heap i { d with refs := d.refs - 1 } }, false))) := by
  refine ⟨rfl, fun hg => ⟨?_, ?_⟩⟩
  · rw [close_eq st i d hg]
    by_cases hr : d.refs - 1 ≤ 0
    · rw [if_pos hr]
      constructor
      · intro hb
        simp only at hb
        exact ⟨by omega, by simpa using hb⟩
      · rintro ⟨hle, hc⟩
        simpa using hc
    · rw [if_neg hr]
      constructor
      · intro hb
        cases hb
      · rintro ⟨hle, hc⟩
        omega
  · intro hr
    rw [close_eq st i d hg, if_neg (by omega)]

/-- Claim C10 witness: the NULL case, a final destroying close on `stX1`
(returns `true`), and a non-final close on `stX2` (returns `false`). -/
theorem close_return_value_witness :
    mgos_vfs_dev_close stX1 none = (stX1, false) ∧
    (mgos_vfs_dev_close stX1 (some 0)).2 = true ∧
    mgos_vfs_dev_close stX2 (some 0) =
      ({ stX2 with heap := heapSet stX2.heap 0 ⟨opsOk, some "x", 1⟩ }, false) :=
  ⟨(close_return_value stX1 0 ⟨opsOk, some "x", 1⟩).1,
   (((close_return_value stX1 0 ⟨opsOk, some "x", 1⟩).2 rfl).1).mpr
     ⟨by decide, rfl⟩,
   ((close_return_value stX2 0 ⟨opsOk, some "x", 2⟩).2 rfl).2 (by decide)⟩

/-- Claim C2: immediately after a successful create the refcount is 1 (and
the instance is anonymous); every successful open-by-name increments the
count by exactly 1; close on a live device either decrements by exactly 1
(when more references remain) or, exactly when the count was 1 (so the
decrement reaches 0), destroys the instance: the name binding is removed and
the memory released (in the code the driver close runs between the two). -/
theorem refcount_lifecycle :
    (∀ st ty opts st' i, mgos_vfs_dev_create st ty opts = (st', some i) →
        devRefs st' i = some 1 ∧ devName st' i = some none) ∧
    (∀ st nm st' i, mgos_vfs_dev_open st nm = (st', some i) →
        ∃ r, devRefs st i = some r ∧ devRefs st' i = some (r + 1)) ∧
    (∀ st i d, heapGet st.heap i = some d → 1 ≤ d.refs →
        ((heapGet (mgos_vfs_dev_close st (some i)).1.heap i = none ↔ d.refs = 1) ∧
         (1 < d.refs →
            devRefs (mgos_vfs_dev_close st (some i)).1 i = some (d.refs - 1)) ∧
         (d.refs = 1 → d.name.isSome = true →
            i ∉ (mgos_vfs_dev_close st (some i)).1.devs))) := by
  refine ⟨?_, ?_, ?_⟩
  · intro st ty opts st' i h
    obtain ⟨ops, hl, hi, hst⟩ := create_int_some st ty opts st' i h
    subst hst
    subst hi
    constructor <;> simp [devRefs, devName, heapGet_cons_self]
  · intro st nm st' i h
    unfold mgos_vfs_dev_open at h
    cases hf : find_dev st nm with
    | none =>
      simp only [hf] at h
      injection h with hA hB
      cases hB
    | some i0 =>
      obtain ⟨n, d, hnm, hmem, hg, hdn⟩ := find_dev_some st nm i0 hf
      simp only [hf, hg] at h
      injection h with hA hB
      injection hB with hB
      subst hB
      subst hA
      refine ⟨d.refs, ?_, ?_⟩
      · simp [devRefs, hg]
      · simp [devRefs, heapGet_heapSet_self _ hg]
  · intro st i d hg hge
    rw [close_eq st i d hg]
    by_cases hr : d.refs - 1 ≤ 0
    · rw [if_pos hr]
      refine ⟨?_, ?_, ?_⟩
      · simp only [heapGet_heapFree_self]
        exact ⟨fun _ => by omega, fun _ => trivial⟩
      · intro hlt
        omega
      · intro _ hn
        simp only [hn, if_pos]
        simp [List.mem_filter]
    · rw [if_neg hr]
      refine ⟨?_, ?_, ?_⟩
      · constructor
        · intro hnone
          rw [heapGet_heapSet_self { d with refs := d.refs - 1 } hg] at hnone
          cases hnone
        · intro h1
          omega
      · intro _
        simp [devRefs, heapGet_heapSet_self { d with refs := d.refs - 1 } hg]
      · intro h1
        omega

/-- Claim C2 witness: create on `stT` yields refcount 1; opening `"x"` on
`stX1` raises 1 to 2; the final close on `stX1` destroys (heap entry gone,
name unbound); a close on `stX2` decrements 2 to 1. -/
theorem refcount_lifecycle_witness :
    (devRefs { dev_types := [⟨"t", opsOk⟩], devs := [],
               heap := [(0, ⟨opsOk, none, 1⟩)], nextId := 1 } 0 = some 1 ∧
     devName { dev_types := [⟨"t", opsOk⟩], devs := [],
               heap := [(0, ⟨opsOk, none, 1⟩)], nextId := 1 } 0 = some none) ∧
    (∃ r, devRefs stX1 0 = some r ∧ devRefs stX2 0 = some (r + 1)) ∧
    (heapGet (mgos_vfs_dev_close stX1 (some 0)).1.heap 0 = none) ∧
    (0 ∉ (mgos_vfs_dev_close stX1 (some 0)).1.devs) ∧
    (devRefs (mgos_vfs_dev_close stX2 (some 0)).1 0 = some (2 - 1)) :=
  ⟨refcount_lifecycle.1 stT "t" none
     { dev_types := [⟨"t", opsOk⟩], devs := [],
       heap := [(0, ⟨opsOk, none, 1⟩)], nextId := 1 } 0 rfl,
   refcount_lifecycle.2.1 stX1 (some "x") stX2 0 rfl,
   ((refcount_lifecycle.2.2 stX1 0 ⟨opsOk, some "x", 1⟩ rfl (by decide)).1).mpr rfl,
   (refcount_lifecycle.2.2 stX1 0 ⟨opsOk, some "x", 1⟩ rfl (by decide)).2.2 rfl rfl,
   (refcount_lifecycle.2.2 stX2 0 ⟨opsOk, some "x", 2⟩ rfl (by decide)).2.1 (by decide)⟩

/-- Claim C5: `create_and_register(type, opts, name)` with non-NULL name
composes create, register and close.  On overall success exactly one
reference — the registry's — remains alive and the device carries the name.
If the device was created but registration failed (for example a duplicate
name), the trailing close destroys the instance completely: it is gone from
the heap and the registry list is unchanged, so no instance survives a
registration failure. -/
theorem create_and_register_spec (st : VfsState) (ty : String)
    (opts : Option String) (n : String) :
    (∀ st', mgos_vfs_dev_create_and_register st ty opts (some n) = (st', true) →
      ∃ i, i ∈ st'.devs ∧ devName st' i = some (some n) ∧ devRefs st' i = some 1) ∧
    (∀ st' i, mgos_vfs_dev_create_and_register st ty opts (some n) = (st', false) →
      (mgos_vfs_dev_create_int st ty opts).2 = some i →
      heapGet st'.heap i = none ∧ st'.devs = st.devs) := by
  constructor
  · intro st' h
    rcases hcr : mgos_vfs_dev_create_int st ty opts with ⟨st1, dev⟩
    cases dev with
    | none =>
      simp only [mgos_vfs_dev_create_and_register, hcr] at h
      injection h with hA hB
      cases hB
    | some i =>
      simp only [mgos_vfs_dev_create_and_register, hcr] at h
      obtain ⟨ops, hl, hi, hst1⟩ := create_int_some st ty opts st1 i hcr
      rcases hreg : mgos_vfs_dev_register st1 (some i) (some n) with ⟨st2, res⟩
      simp only [hreg] at h
      injection h with hA hB
      subst hB
      obtain ⟨d, hgd, hst2⟩ := register_true st1 i n st2 hreg
      have hd : d = ⟨ops, none, 1⟩ := by
        rw [hst1, hi, heapGet_cons_self] at hgd
        injection hgd with hgd
        exact hgd.symm
      subst hd
      have hg2 : heapGet st2.heap i = some ⟨ops, some n, 1 + 1⟩ := by
        rw [hst2]
        exact heapGet_heapSet_self _ hgd
      rw [close_eq st2 i ⟨ops, some n, 1 + 1⟩ hg2,
          if_neg (by norm_num : ¬((1 : Int) + 1 - 1 ≤ 0))] at hA
      subst hA
      refine ⟨i, ?_, ?_, ?_⟩
      · simp [hst2]
      · simp only [devName]
        rw [heapGet_heapSet_self _ hg2]
        rfl
      · simp only [devRefs]
        rw [heapGet_heapSet_self _ hg2]
        norm_num
  · intro st' i h hci
    rcases hcr : mgos_vfs_dev_create_int st ty opts with ⟨st1, dev⟩
    rw [hcr] at hci
    have hdev : dev = some i := hci
    subst hdev
    simp only [mgos_vfs_dev_create_and_register, hcr] at h
    obtain ⟨ops, hl, hi, hst1⟩ := create_int_some st ty opts st1 i hcr
    injection h with hA hB
    have hrf := register_false st1 (some i) (some n) hB
    rw [hrf] at hA
    have hg1 : heapGet st1.heap i = some ⟨ops, none, 1⟩ := by
      rw [hst1, hi]
      exact heapGet_cons_self
    rw [close_eq st1 i ⟨ops, none, 1⟩ hg1,
        if_pos (by norm_num : ((1 : Int) - 1 ≤ 0))] at hA
    subst hA
    constructor
    · simp [heapGet_heapFree_self]
    · simp [hst1]

/-- Claim C5 witness: successful composition on `stT` leaves device 0 named
`"x"` with one reference in `stX1`; the duplicate registration on `stX1`
creates transient device 1, fails to register it, and destroys it. -/
theorem create_and_register_spec_witness :
    mgos_vfs_dev_create_and_register stT "t" none (some "x") = (stX1, true) ∧
    (∃ i, i ∈ stX1.devs ∧ devName stX1 i = some (some "x") ∧
      devRefs stX1 i = some 1) ∧
    mgos_vfs_dev_create_and_register stX1 "t" none (some "x") = (stXfail, false) ∧
    (heapGet stXfail.heap 1 = none ∧ stXfail.devs = stX1.devs) :=
  ⟨rfl,
   (create_and_register_spec stT "t" none "x").1 stX1 rfl,
   rfl,
   (create_and_register_spec stX1 "t" none "x").2 stXfail 1 rfl rfl⟩

/-- Claim C3: `mgos_process_devtab` of an input all of whose records are
blank or comments succeeds with the state untouched (zero devices created);
a record with no type token (no whitespace split) fails without touching the
state; and when the records split as a succeeding prefix, a first failing
record and a remainder, processing returns `false` with the state left at the
failing record's attempt — the devices registered by the prefix remain
(`devs` is exactly the prefix's registry list) and the remainder is never
processed (the result does not depend on it). -/
theorem devtab_stops_on_first_failure :
    (∀ st dt, (∀ r ∈ records dt, skipRec r = true) →
      mgos_process_devtab st dt = (st, true)) ∧
    (∀ st r, (next_field (some r) fieldDelims).2 = none →
      mgos_process_devtab_entry st r = (st, false)) ∧
    (∀ st dt pre r rest st1, records dt = pre ++ r :: rest →
      processRecords st pre = (st1, true) → skipRec r = false →
      (mgos_process_devtab_entry st1 r).2 = false →
      mgos_process_devtab st dt = ((mgos_process_devtab_entry st1 r).1, false) ∧
      (mgos_process_devtab st dt).1.devs = st1.devs) := by
  refine ⟨?_, ?_, ?_⟩
  · intro st dt hall
    unfold mgos_process_devtab
    have hrec : ∀ rs : List String, (∀ r ∈ rs, skipRec r = true) →
        processRecords st rs = (st, true) := by
      intro rs
      induction rs with
      | nil => intro _; rfl
      | cons a t ih =>
        intro hall'
        simp only [processRecords, if_pos (hall' a (by simp))]
        exact ih (fun r hr => hall' r (by simp [hr]))
    exact hrec (records dt) hall
  · intro st r hnone
    simp only [mgos_process_devtab_entry, hnone]
    rfl
  · intro st dt pre r rest st1 hsplit hpre hskip hfail
    have hmain : mgos_process_devtab st dt =
        ((mgos_process_devtab_entry st1 r).1, false) := by
      unfold mgos_process_devtab
      rw [hsplit, processRecords_append, hpre]
      simp [processRecords, hskip, hfail]
    exact ⟨hmain, by rw [hmain]; exact entry_false_devs st1 r hfail⟩

/-- Claim C3 witness: a comment-plus-blank devtab succeeds with no devices;
the single-token record `"b"` is a parse error; on `"a t|b|c t"` processing
registers `a`, stops at `"b"`, and never reaches `"c t"`. -/
theorem devtab_stops_on_first_failure_witness :
    mgos_process_devtab stT "# x|   " = (stT, true) ∧
    mgos_process_devtab_entry stT "b" = (stT, false) ∧
    mgos_process_devtab stT "a t|b|c t" =
      ((mgos_process_devtab_entry stDa "b").1, false) ∧
    (mgos_process_devtab stT "a t|b|c t").1.devs = stDa.devs :=
  ⟨devtab_stops_on_first_failure.1 stT "# x|   " (by decide),
   devtab_stops_on_first_failure.2.1 stT "b" (by decide),
   (devtab_stops_on_first_failure.2.2 stT "a t|b|c t" ["a t"] "b" ["c t"] stDa
     (by decide) rfl (by decide) (by decide)).1,
   (devtab_stops_on_first_failure.2.2 stT "a t|b|c t" ["a t"] "b" ["c t"] stDa
     (by decide) rfl (by decide) (by decide)).2⟩

/-- Claim C1 counterexample: in the state `stX2` the device named `"x"` has
reference count exactly 2 (the registry's reference plus one holder).
`unregister` removes only the name binding (yielding `stX3`) and a subsequent
`open("x")` returns NULL — so far as claimed.  But the remaining holder's
single close does NOT succeed (it returns `false`) and does NOT destroy the
instance: the count only drops from 2 to 1, because the `refs > 1` branch of
`mgos_vfs_dev_unregister` never releases the reference that `register` took. -/
theorem unregister_refs2_counterexample :
    devRefs stX2 0 = some 2 ∧
    mgos_vfs_dev_unregister stX2 (some "x") = (stX3, true) ∧
    (mgos_vfs_dev_open stX3 (some "x")).2 = none ∧
    (mgos_vfs_dev_close stX3 (some 0)).2 = false ∧
    devRefs (mgos_vfs_dev_close stX3 (some 0)).1 0 = some 1 :=
  ⟨rfl, rfl, rfl, rfl, rfl⟩

/-- Claim C1 amended: for a device whose reference count is exactly 2 (one
registry reference plus one holder), `unregister` removes only the name
binding and leaves the reference count at 2; a subsequent `open` with that
name returns NULL; the remaining holder's single close decrements the count
to 1, returns `false`, and does not destroy the instance — the registry's
reference is never released by `unregister`, so the instance survives
anonymously and is destroyed only by one further close. -/
theorem unregister_refs2_amended :
    devRefs stX2 0 = some 2 ∧ devName stX2 0 = some (some "x") ∧
    mgos_vfs_dev_unregister stX2 (some "x") = (stX3, true) ∧
    devName stX3 0 = some none ∧ devRefs stX3 0 = some 2 ∧ stX3.devs = [] ∧
    (mgos_vfs_dev_open stX3 (some "x")).2 = none ∧
    mgos_vfs_dev_close stX3 (some 0) = (stX4, false) ∧
    devRefs stX4 0 = some 1 ∧
    mgos_vfs_dev_close stX4 (some 0) = (stX5, true) ∧
    heapGet stX5.heap 0 = none :=
  ⟨rfl, rfl, rfl, rfl, rfl, rfl, rfl, rfl, rfl, rfl, rfl⟩

/-- Claim C4: processing the devtab text
`"a spiflash size=4096|b ramdisk|# note|   |c flash opts"` (all driver opens
succeeding) returns `true` and registers exactly the three named devices
`a`, `b`, `c` with one reference each, skipping the comment and the blank
record.  The device types are certified by the stored contracts; the options
delivered to each driver are certified because each concrete driver's `open`
succeeds only on its expected options string (`"size=4096"`, `""`, `"opts"`),
so the run could not have returned `true` otherwise. -/
theorem devtab_example_registers_three :
    devtabRes.2 = true ∧
    devtabRes.1.devs = [2, 1, 0] ∧
    devtabRes.1.heap.map (fun p => (p.1, p.2.name, p.2.refs)) =
      [(2, some "c", 1), (1, some "b", 1), (0, some "a", 1)] ∧
    (heapGet devtabRes.1.heap 0).map (fun d => d.ops) = some spiflash_ops ∧
    (heapGet devtabRes.1.heap 1).map (fun d => d.ops) = some ramdisk_ops ∧
    (heapGet devtabRes.1.heap 2).map (fun d => d.ops) = some flash_ops ∧
    find_dev devtabRes.1 (some "a") = some 0 ∧
    find_dev devtabRes.1 (some "b") = some 1 ∧
    find_dev devtabRes.1 (some "c") = some 2 :=
  ⟨rfl, rfl, rfl, rfl, rfl, rfl, rfl, rfl, rfl⟩

end VfsDev
